import Mathlib

/-!
Verification development for the sitemap crawler of
`Project_2_working_with_web_data` (`src/sitemap_parser.py`).

Strings are embedded as `List Char`.  The Python string operations used by
the source (`str.replace` with empty replacement, `str.split` on a character
or on a multi-character separator, `str.splitlines`, `str.strip`,
`str.startswith`, `str.endswith`) are given executable models with Python's
semantics.  HTTP fetching and XML `loc`-extraction are the external
collaborators of the design and are supplied as functions in a `CrawlEnv`.
Python exceptions (`ValueError` from `max()` on an empty sequence,
`IndexError` from `split(": ")[1]`) are modelled with `Except`; recursion is
driven by explicit fuel (the source recursion's depth is bounded by the visit
counter, so any fuel above `max_sitemap_limit` is enough; theorems about
concrete runs exhibit a successful result, so fuel exhaustion cannot be
hiding behaviour there).
-/

namespace Sitemap

abbrev Str := List Char

/-- Recursion core of `pyReplaceDel`: the fuel only makes the recursion
structural (each step consumes at least one character, so any fuel at or
above `s.length` gives the scan's value; the `0, s` arm is unreachable
then). -/
def replaceGo (old : Str) : Nat → Str → Str
  | _, [] => []
  | 0, s => s
  | n + 1, c :: rest =>
    if old ≠ [] ∧ old.isPrefixOf (c :: rest) then
      replaceGo old n ((c :: rest).drop old.length)
    else
      c :: replaceGo old n rest

/-- Python `s.replace(old, "")`: delete every non-overlapping occurrence of
`old`, scanning left to right.  Edge case preserved from Python: for an
empty `old` and empty replacement the string is unchanged. -/
def pyReplaceDel (old : Str) (s : Str) : Str :=
  replaceGo old s.length s

/-- Python `s.split(sep)` for a one-character separator `sep`:
`"".split(sep) = [""]`, empty segments are kept. -/
def splitOnChar (sep : Char) : Str → List Str
  | [] => [[]]
  | c :: rest =>
    if c = sep then [] :: splitOnChar sep rest
    else
      match splitOnChar sep rest with
      | [] => [[c]]
      | seg :: segs => (c :: seg) :: segs

/-- Recursion core of `pySplitSep`, fuelled the same way as `replaceGo`
(the `0, s` arm is unreachable for fuel at or above `s.length`). -/
def splitGo (sep : Str) : Nat → Str → List Str
  | _, [] => [[]]
  | 0, s => [s]
  | n + 1, c :: rest =>
    if sep.isPrefixOf (c :: rest) then
      [] :: splitGo sep n ((c :: rest).drop sep.length)
    else
      match splitGo sep n rest with
      | [] => [[c]]
      | seg :: segs => (c :: seg) :: segs

/-- Python `s.split(sep)` for a non-empty multi-character separator:
non-overlapping occurrences, scanned left to right (Python raises on an
empty separator; the source only splits on `": "`). -/
def pySplitSep (sep : Str) (s : Str) : List Str :=
  if sep = [] then [s] else splitGo sep s.length s

/-- Python `s.splitlines()` restricted to `'\n'` line breaks (the inputs in
this development use no other line terminator): no entry for a trailing
newline, and `"".splitlines() = []`. -/
def splitlines : Str → List Str
  | [] => []
  | c :: rest =>
    if c = '\n' then [] :: splitlines rest
    else
      match splitlines rest with
      | [] => [[c]]
      | seg :: segs => (c :: seg) :: segs

/-- Characters stripped by Python `str.strip()` with no argument. -/
def isPyWS (c : Char) : Bool :=
  c = ' ' || c = '\t' || c = '\n' || c = '\r' || c = '\x0b' || c = '\x0c'

/-- Python `s.strip()`: drop whitespace from both ends. -/
def pyStrip (s : Str) : Str :=
  ((s.dropWhile isPyWS).reverse.dropWhile isPyWS).reverse

/-- Python `s.strip("/")`: drop `'/'` characters from both ends. -/
def stripSlashes (s : Str) : Str :=
  ((s.dropWhile (· = '/')).reverse.dropWhile (· = '/')).reverse

/-- The text before the first occurrence of `sep` (the whole string when
`sep` does not occur). -/
def takeUntilSep (sep : Str) : Str → Str
  | [] => []
  | c :: rest =>
    if sep.isPrefixOf (c :: rest) then []
    else c :: takeUntilSep sep rest

/-- Everything after the first occurrence of `sep`, `none` when `sep` does
not occur. -/
def dropThroughSep (sep : Str) : Str → Option Str
  | [] => none
  | c :: rest =>
    if sep.isPrefixOf (c :: rest) then some ((c :: rest).drop sep.length)
    else dropThroughSep sep rest

/-! Data model of the crawler. -/

/-- One row of the per-document table built by `enhance_dataframe`: the
`URLs` column plus the `Level_0 .. Level_(max_depth-1)` cells in ascending
depth order (`none` models pandas `None` for a URL shallower than
`max_depth`). -/
structure Row where
  url : Str
  levels : List (Option Str)
deriving DecidableEq

/-- Source `split_url_path` (inner function of `enhance_dataframe`):
`url.replace(self.target_url, "").strip("/").split("/")`. -/
def split_url_path (target url : Str) : List Str :=
  splitOnChar '/' (stripSlashes (pyReplaceDel target url))

/-- Source `enhance_dataframe`: `max` over the per-URL segment counts
(Python `max()` raises `ValueError` on an empty sequence, modelled by
`none`), then one `Level_depth` cell per `depth < max_depth` per row. -/
def enhance_dataframe (target : Str) (urls : List Str) : Option (List Row) :=
  match urls with
  | [] => none
  | u :: us =>
    let max_depth :=
      (((u :: us).map fun x => (split_url_path target x).length).foldl Nat.max 0)
    some ((u :: us).map fun x =>
      { url := x
        levels := (List.range max_depth).map fun depth =>
          (split_url_path target x).get? depth })

/-- Source line 67: `sitemap_url.split("/")[-1]` (Python `split` always
returns a non-empty list, so the default is never used). -/
def sitemap_id (url : Str) : Str :=
  (splitOnChar '/' url).getLastD []

/-- Literal suffix `".xml"` used by the nested-sitemap test. -/
def xmlSuffix : Str := ".xml".toList

/-- Python `loc.text.endswith(".xml")`. -/
def endsWithXml (s : Str) : Bool := xmlSuffix.isSuffixOf s

/-- Outcome of one HTTP GET, as seen at the `fetch_content` boundary:
either response text, or any `requests.exceptions.RequestException`
(network, DNS, timeout, or the non-2xx raised by `raise_for_status`). -/
inductive FetchResult where
  | success (text : Str)
  | transportError (msg : Str)

/-- Source `fetch_content`: return the response text, and turn every
`RequestException` into the empty string (the error is only printed). -/
def fetch_content : FetchResult → Str
  | .success t => t
  | .transportError _ => []

/-- Python exceptions that can escape the crawler's own code:
`ValueError` from `max()` on an empty sequence in `enhance_dataframe`, and
`IndexError` from `line.split(": ")[1]` in `extract_sitemaps`. -/
inductive PyErr where
  | valueError
  | indexError
deriving DecidableEq

/-- Mutable state of a `SitemapParser` instance: `sitemap_data` (a Python
dict, insertion ordered, last write wins per key), the shared counter
`processed_sitemaps_count`, and a ghost log `visited` recording each
document that is actually processed past the entry guard (i.e. fetched), in
order.  The ghost field changes no control flow. -/
structure CrawlState where
  data : List (Str × List Row)
  processed : Nat
  visited : List Str
deriving DecidableEq

/-- External collaborators and configuration: the HTTP fetch, the
`find_all("loc")` text extraction of the markup parser (applied to fetched
content), `max_sitemap_limit`, and `target_url`. -/
structure CrawlEnv where
  fetch : Str → FetchResult
  locsOf : Str → List Str
  limit : Nat
  target : Str

/-- Python dict assignment `d[k] = v`: overwrite in place when the key is
present, append otherwise. -/
def dictInsert (k : Str) (v : List Row) : List (Str × List Row) → List (Str × List Row)
  | [] => [(k, v)]
  | (k', v') :: rest =>
    if k' = k then (k, v) :: rest else (k', v') :: dictInsert k v rest

/-- Python dict lookup `d[k]`. -/
def dictGet (k : Str) : List (Str × List Row) → Option (List Row)
  | [] => none
  | (k', v) :: rest => if k' = k then some v else dictGet k rest

/-- Propagation plumbing: fuel exhaustion (`none`) and Python exceptions
short-circuit, a normal state flows into the continuation `k`. -/
def contOf (k : CrawlState → Option (Except PyErr CrawlState)) :
    Option (Except PyErr CrawlState) → Option (Except PyErr CrawlState)
  | none => none
  | some (.error e) => some (.error e)
  | some (.ok st) => k st

/-- The `for loc in soup.find_all("loc")` loop of `parse_sitemap` (source
lines 73-79): for each location entry in order, when it ends in `".xml"`
and the counter is still below the limit, increment the counter and then
recurse (`visit` is the recursive call, supplied as a function). -/
def process_locs (limit : Nat) (visit : Str → CrawlState → Option (Except PyErr CrawlState)) :
    List Str → CrawlState → Option (Except PyErr CrawlState)
  | [], st => some (.ok st)
  | l :: ls, st =>
    if endsWithXml l = true ∧ st.processed < limit then
      contOf (fun s => process_locs limit visit ls s)
        (visit l { st with processed := st.processed + 1 })
    else
      process_locs limit visit ls st

/-- Source `parse_sitemap` (lines 53-79): entry guard when the counter has
reached the limit; fetch; extract `loc` texts; derive `sitemap_id`; build
and store the enhanced table (a `ValueError` in `enhance_dataframe` aborts
before the store); then the nested-sitemap loop.  The ghost `visited` entry
is recorded together with the store (observationally equal placements on
every non-exception run). -/
def parse_sitemap (env : CrawlEnv) : Nat → Str → CrawlState → Option (Except PyErr CrawlState)
  | 0, _, _ => none
  | fuel + 1, url, st =>
    if st.processed ≥ env.limit then some (.ok st)
    else
      let xml_content := fetch_content (env.fetch url)
      let urls := env.locsOf xml_content
      match enhance_dataframe env.target urls with
      | none => some (.error .valueError)
      | some rows =>
        process_locs env.limit (fun u s => parse_sitemap env fuel u s) urls
          { st with data := dictInsert (sitemap_id url) rows st.data
                    visited := st.visited ++ [url] }

/-- Literal `"Sitemap:"` tested by `line.startswith` in `extract_sitemaps`. -/
def sitemapPfx : Str := "Sitemap:".toList

/-- Literal `": "` separator of `line.split(": ")` in `extract_sitemaps`. -/
def colonSpace : Str := ": ".toList

/-- One robots.txt line, per source lines 88-89: lines not starting with
`"Sitemap:"` are ignored (`none`); on a matching line, `split(": ")[1]`
raises `IndexError` when the separator does not occur, otherwise the second
split segment is stripped. -/
def extract_line (line : Str) : Option (Except PyErr Str) :=
  if sitemapPfx.isPrefixOf line then
    match (pySplitSep colonSpace line)[1]? with
    | none => some (.error .indexError)
    | some u => some (.ok (pyStrip u))
  else none

/-- The line loop of `extract_sitemaps`: each extracted sitemap URL is
handed to `parse_sitemap` in order; exceptions abort the whole crawl. -/
def crawl_lines (env : CrawlEnv) (fuel : Nat) :
    List Str → CrawlState → Option (Except PyErr CrawlState)
  | [], st => some (.ok st)
  | line :: rest, st =>
    match extract_line line with
    | none => crawl_lines env fuel rest st
    | some (.error e) => some (.error e)
    | some (.ok u) => contOf (fun s => crawl_lines env fuel rest s) (parse_sitemap env fuel u st)

/-- Literal `"/robots.txt"` appended to the target URL (source line 85). -/
def robotsPath : Str := "/robots.txt".toList

/-- Source `extract_sitemaps` (lines 81-90), as triggered by `__init__` on a
fresh state: fetch `{target_url}/robots.txt`, scan it line by line, and
crawl each declared sitemap. -/
def extract_sitemaps (env : CrawlEnv) (fuel : Nat) : Option (Except PyErr CrawlState) :=
  crawl_lines env fuel
    (splitlines (fetch_content (env.fetch (env.target ++ robotsPath)))) ⟨[], 0, []⟩

/-- Projection: the final state of a run that ended without exception. -/
def okOf : Option (Except PyErr CrawlState) → Option CrawlState
  | some (.ok st) => some st
  | _ => none

/-- Projection: the exception of a run that ended with one. -/
def errOf : Option (Except PyErr CrawlState) → Option PyErr
  | some (.error e) => some e
  | _ => none

/-- Projection: the ghost visit log of a run that ended without exception. -/
def visitedOf (r : Option (Except PyErr CrawlState)) : Option (List Str) :=
  (okOf r).map CrawlState.visited

/-- Projection: the URL extracted from one robots.txt line, when one is. -/
def okUrlOf : Option (Except PyErr Str) → Option Str
  | some (.ok u) => some u
  | _ => none

/-! Concrete environments used by the scenario claims.  URL and content
strings are kept minimal: the source never inspects their shape beyond the
operations modelled above.  Each environment lets a document's fetched
content be the document's own URL, so `locsOf` describes the document graph
directly. -/

/-- Document graph for the budget-exhaustion scenario: the root references
five nested `.xml` documents, each of which contains a single ordinary page
URL.  The limit is the scenario's `max_sitemap_limit = 2`. -/
def c5Subs : List Str :=
  ["s1.xml".toList, "s2.xml".toList, "s3.xml".toList, "s4.xml".toList, "s5.xml".toList]

def c5Root : Str := "r.xml".toList

def envC5 : CrawlEnv :=
  { fetch := fun u => .success u
    locsOf := fun c => if c = c5Root then c5Subs else if c ∈ c5Subs then ["p".toList] else []
    limit := 2
    target := "t".toList }

/-- Robots content with 21 distinct sitemap declarations (one per letter),
every declared document being a leaf sitemap with one ordinary page URL. -/
def c1Names : List Str := ("abcdefghijklmnopqrstu".toList).map fun c => c :: ".xml".toList

def c1Robots : Str := (c1Names.map fun n => "Sitemap: ".toList ++ n ++ ['\n']).flatten

def envC1 : CrawlEnv :=
  { fetch := fun u => if u = "t".toList ++ robotsPath then .success c1Robots else .success u
    locsOf := fun _ => ["p".toList]
    limit := 20
    target := "t".toList }

/-- Environment whose robots.txt consists of one `Sitemap:`-prefixed line
that contains no `": "` separator anywhere. -/
def envC10 : CrawlEnv :=
  { fetch := fun u =>
      if u = "t".toList ++ robotsPath then .success "Sitemap:https://ex.com/s.xml".toList
      else .success u
    locsOf := fun _ => ["p".toList]
    limit := 20
    target := "t".toList }

/-- Environment in which every fetch yields empty content and the markup
collaborator (faithfully) finds no `loc` element in it. -/
def envC2 : CrawlEnv :=
  { fetch := fun _ => .success []
    locsOf := fun c => if c = [] then [] else ["p".toList]
    limit := 20
    target := "t".toList }

/-- Single leaf sitemap document, used to instantiate hypotheses of the
general theorems at a concrete input. -/
def envLeaf : CrawlEnv :=
  { fetch := fun u => .success u
    locsOf := fun c => if c = "s.xml".toList then ["p".toList] else []
    limit := 20
    target := "t".toList }

/-- The state `parse_sitemap` reaches on `envLeaf` from a fresh state. -/
def stLeaf : CrawlState :=
  ⟨[("s.xml".toList, [⟨"p".toList, [some "p".toList]⟩])], 0, ["s.xml".toList]⟩

/-- Modelled from the spec (§4.3 per-URL transform), for comparison with the
source's `split_url_path`: "strip the siteTarget prefix from the URL, strip
leading/trailing `/`, split remaining string on `/`".  The only difference
from the source is prefix removal in place of Python's replace-everywhere. -/
def split_url_path_spec (target url : Str) : List Str :=
  splitOnChar '/'
    (stripSlashes (if target.isPrefixOf url then url.drop target.length else url))

/-- A robots.txt line whose `": "` separator occurs twice. -/
def c4Line : Str := "Sitemap: http://h: 80/x.xml".toList

/-- Document graph of the depth-first order scenario: document `a`
references `b` then `c` (both `.xml`), `b` references `d` (`.xml`), and `d`
and `c` each contain one ordinary page URL (`p`, `q`). -/
def dfsEnv (t a b c d p q : Str) : CrawlEnv :=
  { fetch := fun u => .success u
    locsOf := fun u =>
      if u = a then [b, c]
      else if u = b then [d]
      else if u = d then [p]
      else if u = c then [q]
      else []
    limit := 20
    target := t }

/-- Document graph of the `sitemap_id`-collision scenario: a root `r`
references the two `.xml` documents `u1` then `u2`, each of which contains
one ordinary page URL (`p1`, `p2`). -/
def collEnv (t r u1 u2 p1 p2 : Str) : CrawlEnv :=
  { fetch := fun u => .success u
    locsOf := fun u =>
      if u = r then [u1, u2]
      else if u = u1 then [p1]
      else if u = u2 then [p2]
      else []
    limit := 20
    target := t }

/-! Theorems. -/

/-- A successful-run projection unfolds back to the run's value. -/
theorem okOf_eq_some {r : Option (Except PyErr CrawlState)} {st : CrawlState} :
    okOf r = some st ↔ r = some (.ok st) := by
  rcases r with _ | er
  · simp [okOf]
  · rcases er with e | s <;> simp [okOf]

/-- C8: decomposing `["https://ex.com/a/b", "https://ex.com/a"]` with
siteTarget `"https://ex.com"` yields max_depth 2 (both rows carry two level
cells, in ascending depth order) and, in input order, the row for `.../a/b`
with levels `a`, `b` and the row for `.../a` with levels `a`, `None`. -/
theorem enhance_dataframe_round_trip :
    enhance_dataframe "https://ex.com".toList
        ["https://ex.com/a/b".toList, "https://ex.com/a".toList] =
      some [⟨"https://ex.com/a/b".toList, [some "a".toList, some "b".toList]⟩,
            ⟨"https://ex.com/a".toList, [some "a".toList, none]⟩] := by
  decide


/-- C10: on robots content consisting of the line
`"Sitemap:https://ex.com/s.xml"` — which starts with the `"Sitemap:"` prefix
but contains no `": "` anywhere — `extract_sitemaps` raises `IndexError`
(`line.split(": ")[1]` indexes past the single-element split) instead of
ignoring the line or extracting a URL. -/
theorem robots_line_without_sep_index_error :
    errOf (extract_sitemaps envC10 25) = some .indexError := by
  decide

/-- C2 (amended): a visit of a document whose content yields no location
entries does not store a zero-row RecordSet; it raises a `ValueError`
(Python `max()` over the empty sequence of segment counts in
`enhance_dataframe`) before anything is stored for that document. -/
theorem parse_sitemap_no_locs_raises (env : CrawlEnv) (fuel : Nat) (url : Str)
    (st : CrawlState) (hguard : st.processed < env.limit)
    (hempty : env.locsOf (fetch_content (env.fetch url)) = []) :
    parse_sitemap env (fuel + 1) url st = some (.error .valueError) := by
  simp only [parse_sitemap]
  rw [if_neg (Nat.not_le.mpr hguard), hempty]
  rfl

/-- Witness for C2's amended theorem at a concrete input: in `envC2` every
fetch yields empty content and the parser finds no `loc` in it. -/
theorem parse_sitemap_no_locs_raises_witness :
    parse_sitemap envC2 1 "s.xml".toList ⟨[], 0, []⟩ = some (.error .valueError) :=
  parse_sitemap_no_locs_raises envC2 0 "s.xml".toList ⟨[], 0, []⟩ (by decide) rfl

/-- C2 counterexample: on a document whose fetched content is empty the
claim's promised behaviour (a stored zero-row RecordSet, no error) does not
happen — the visit ends in a `ValueError` and returns no state at all. -/
theorem parse_sitemap_empty_content_cex :
    errOf (parse_sitemap envC2 1 "page.xml".toList ⟨[], 0, []⟩) = some .valueError ∧
    okOf (parse_sitemap envC2 1 "page.xml".toList ⟨[], 0, []⟩) = none := by
  decide

/-- C5 counterexample: with `max_sitemap_limit = 2` and a root referencing
five nested `.xml` documents, the crawl visits the root and the first
nested document only — 2 documents in total, not the claimed 3.  (The
second nested call is made after the counter is incremented to 2 and is
discarded by the entry guard `count >= limit`.) -/
theorem budget_exhaustion_not_three_total :
    visitedOf (parse_sitemap envC5 4 c5Root ⟨[], 0, []⟩) = some [c5Root, "s1.xml".toList] ∧
    (visitedOf (parse_sitemap envC5 4 c5Root ⟨[], 0, []⟩)).map List.length ≠ some 3 := by
  decide

/-- C5 (amended): with `max_sitemap_limit = 2` and a root referencing five
nested `.xml` documents, exactly 1 document beyond the root is visited (2
total including the root): the root's own visit does not increment the
counter, each qualifying entry increments before recursing, and the
recursive call that raises the counter to the limit (here the second one)
is itself discarded by the entry guard, so the counter ends at 2 while only
one nested document was actually visited. -/
theorem budget_exhaustion_two_total :
    visitedOf (parse_sitemap envC5 4 c5Root ⟨[], 0, []⟩) = some [c5Root, "s1.xml".toList] ∧
    (visitedOf (parse_sitemap envC5 4 c5Root ⟨[], 0, []⟩)).map List.length = some 2 ∧
    (okOf (parse_sitemap envC5 4 c5Root ⟨[], 0, []⟩)).map CrawlState.processed = some 2 := by
  decide

set_option maxRecDepth 8000 in
/-- C1 counterexample: a crawl over a robots.txt declaring 21 distinct leaf
sitemaps (with `max_sitemap_limit` at its hard-coded 20) visits all 21
documents: top-level visits never increment the shared counter, so the
total visited-document count across the whole crawl exceeds the limit. -/
theorem crawl_can_exceed_limit_across_roots :
    envC1.limit = 20 ∧
    (visitedOf (extract_sitemaps envC1 25)).map List.length = some 21 := by
  decide



/-- Budget invariant of the nested-sitemap loop, given that the supplied
`visit` function satisfies the per-call invariant. -/
theorem process_locs_budget (limit : Nat)
    (vf : Str → CrawlState → Option (Except PyErr CrawlState))
    (hvf : ∀ u s s₂, vf u s = some (.ok s₂) →
      s.processed ≤ s₂.processed ∧
      (s.processed ≤ limit → s₂.processed ≤ limit) ∧
      (s.processed < limit →
        s₂.visited.length + s.processed ≤ s.visited.length + s₂.processed + 1) ∧
      (s.processed < limit → s₂.processed = limit →
        s₂.visited.length + s.processed ≤ s.visited.length + s₂.processed) ∧
      (¬ s.processed < limit → s₂ = s)) :
    ∀ locs st st₂, process_locs limit vf locs st = some (.ok st₂) →
      st.processed ≤ st₂.processed ∧
      (st.processed ≤ limit → st₂.processed ≤ limit) ∧
      (st₂.visited.length + st.processed ≤ st.visited.length + st₂.processed) ∧
      (st₂.processed = limit → st.processed < limit →
        st₂.visited.length + st.processed + 1 ≤ st.visited.length + st₂.processed) := by
  intro locs
  induction locs with
  | nil =>
    intro st st₂ h
    simp only [process_locs, Option.some.injEq, Except.ok.injEq] at h
    subst h
    refine ⟨le_rfl, fun h => h, by omega, by omega⟩
  | cons l ls ih =>
    intro st st₂ h
    simp only [process_locs] at h
    by_cases hc : endsWithXml l = true ∧ st.processed < limit
    · rw [if_pos hc] at h
      rcases hv : vf l { st with processed := st.processed + 1 } with _ | er
      · rw [hv] at h; exact absurd h (by simp [contOf])
      · rcases er with e | s₁
        · rw [hv] at h; exact absurd h (by simp [contOf])
        · rw [hv] at h
          simp only [contOf] at h
          obtain ⟨p1, p2, p3, p4, p5⟩ := hvf l _ _ hv
          obtain ⟨l1, l2, l3, l4⟩ := ih s₁ st₂ h
          simp only at p1 p2 p3 p4 p5
          have hsub : s₁.processed ≤ limit := p2 (by omega)
          rcases Nat.lt_or_ge s₁.processed limit with hq | hq
          · -- the nested call ended strictly below the cap
            have hlt : st.processed + 1 < limit ∨ st.processed + 1 = limit := by omega
            rcases hlt with hlt | hlt
            · have h3 := p3 hlt
              refine ⟨by omega, fun _ => l2 hsub, by omega, ?_⟩
              intro he hplt
              have := l4 he hq
              omega
            · have := p5 (by omega)
              subst this
              simp only at l1 l2 l3 l4
              omega
          · -- the nested call ended at the cap
            have hq' : s₁.processed = limit := by omega
            have hlt : st.processed + 1 < limit ∨ st.processed + 1 = limit := by omega
            rcases hlt with hlt | hlt
            · have h4 := p4 hlt hq'
              refine ⟨by omega, fun _ => l2 hsub, by omega, by omega⟩
            · have := p5 (by omega)
              subst this
              simp only at l1 l2 l3 l4
              refine ⟨by omega, fun _ => l2 hsub, by omega, by omega⟩
    · rw [if_neg hc] at h
      exact ih st st₂ h

/-- Budget invariant of a single `parse_sitemap` call: the counter is
monotone and capped, each call adds at most counter-increments-plus-one
visits (the plus-one being its own visit), without the plus-one when the
counter ends at the cap, and a call at the cap is a silent no-op. -/
theorem parse_sitemap_budget_core (env : CrawlEnv) :
    ∀ fuel url st st₂, parse_sitemap env fuel url st = some (.ok st₂) →
      st.processed ≤ st₂.processed ∧
      (st.processed ≤ env.limit → st₂.processed ≤ env.limit) ∧
      (st.processed < env.limit →
        st₂.visited.length + st.processed ≤ st.visited.length + st₂.processed + 1) ∧
      (st.processed < env.limit → st₂.processed = env.limit →
        st₂.visited.length + st.processed ≤ st.visited.length + st₂.processed) ∧
      (¬ st.processed < env.limit → st₂ = st) := by
  intro fuel
  induction fuel with
  | zero => intro url st st₂ h; exact absurd h (by simp [parse_sitemap])
  | succ fuel ih =>
    intro url st st₂ h
    simp only [parse_sitemap] at h
    by_cases hg : st.processed ≥ env.limit
    · rw [if_pos hg] at h
      simp only [Option.some.injEq, Except.ok.injEq] at h
      subst h
      refine ⟨le_rfl, fun h => h, by omega, by omega, fun _ => rfl⟩
    · rw [if_neg hg] at h
      rcases he : enhance_dataframe env.target (env.locsOf (fetch_content (env.fetch url))) with _ | rows
      · rw [he] at h; exact absurd h (by simp)
      · rw [he] at h
        obtain ⟨l1, l2, l3, l4⟩ :=
          process_locs_budget env.limit _ (fun u s s₂ hv => ih u s s₂ hv) _ _ _ h
        simp only [List.length_append, List.length_cons, List.length_nil] at l1 l2 l3 l4
        refine ⟨l1, l2, ?_, ?_, ?_⟩
        · intro _; omega
        · intro hlt he2
          have := l4 he2 hlt
          omega
        · intro hcon; exact absurd (Nat.lt_of_not_le hg) hcon



/-- C1 (amended): the shared counter `processed_sitemaps_count` never
exceeds `max_sitemap_limit`, and a crawl consisting of a single top-level
`visit` call from a fresh state never visits more than `max_sitemap_limit`
documents in total.  (As the counterexample shows, a whole crawl over
several robots-declared sitemaps can exceed the limit, because top-level
visits do not increment the counter.) -/
theorem parse_sitemap_visit_budget (env : CrawlEnv) (fuel : Nat) (url : Str)
    (st st₂ : CrawlState) (hok : okOf (parse_sitemap env fuel url st) = some st₂) :
    (st.processed ≤ env.limit → st₂.processed ≤ env.limit) ∧
    (st.processed = 0 → st.visited = [] → st₂.visited.length ≤ env.limit) := by
  obtain ⟨p1, p2, p3, p4, p5⟩ :=
    parse_sitemap_budget_core env fuel url st st₂ (okOf_eq_some.mp hok)
  refine ⟨p2, ?_⟩
  intro h0 hv
  rcases Nat.eq_zero_or_pos env.limit with hL | hL
  · have he := p5 (by omega)
    subst he
    simp [hv, hL]
  · have h3 := p3 (by omega)
    have h2 := p2 (by omega)
    rw [h0, hv] at h3
    by_cases he : st₂.processed = env.limit
    · have h4 := p4 (by omega) he
      rw [h0, hv] at h4
      simp only [List.length_nil] at h3 h4
      omega
    · simp only [List.length_nil] at h3
      omega

/-- Witness for C1's amended theorem: a concrete single-document crawl,
whose final counter and visit count stay within the limit of 20. -/
theorem parse_sitemap_visit_budget_witness :
    stLeaf.processed ≤ 20 ∧ stLeaf.visited.length ≤ 20 :=
  ⟨(parse_sitemap_visit_budget envLeaf 2 "s.xml".toList ⟨[], 0, []⟩ stLeaf (by decide)).1
      (by decide),
   (parse_sitemap_visit_budget envLeaf 2 "s.xml".toList ⟨[], 0, []⟩ stLeaf (by decide)).2
      rfl rfl⟩


/-- In the absence of any occurrence of `old`, the replace scan is the
identity. -/
theorem replaceGo_no_occ (old : Str) :
    ∀ n s, s.length ≤ n → (∀ i, ¬ old.isPrefixOf (s.drop i) = true) →
      replaceGo old n s = s := by
  intro n
  induction n with
  | zero =>
    intro s hs _
    have h0 : s = [] := List.eq_nil_of_length_eq_zero (Nat.le_zero.mp hs)
    subst h0
    rfl
  | succ n ih =>
    intro s hs hno
    cases s with
    | nil => rfl
    | cons c rest =>
      simp only [replaceGo]
      rw [if_neg]
      · have hrest : replaceGo old n rest = rest := by
          apply ih
          · simp only [List.length_cons] at hs
            omega
          · intro i
            have := hno (i + 1)
            simpa using this
        rw [hrest]
      · rintro ⟨-, hp⟩
        exact hno 0 (by simpa using hp)

/-- On a URL in which the target occurs at most as a leading prefix,
Python's replace-everywhere is exactly removal of the leading prefix. -/
theorem pyReplaceDel_leading_only (target url : Str) (hne : target ≠ [])
    (honly : ∀ i, i < url.length → target.isPrefixOf (url.drop i) = true → i = 0) :
    pyReplaceDel target url =
      if target.isPrefixOf url then url.drop target.length else url := by
  have htp : 0 < target.length := List.length_pos.mpr hne
  have hbig : ∀ i, url.length ≤ i → ¬ target.isPrefixOf (url.drop i) = true := by
    intro i hi hp
    rw [List.drop_eq_nil_of_le hi] at hp
    exact hne (List.prefix_nil.mp (List.isPrefixOf_iff_prefix.mp hp))
  by_cases hp : target.isPrefixOf url = true
  · rw [if_pos hp]
    cases url with
    | nil => simp [pyReplaceDel, replaceGo]
    | cons c rest =>
      simp only [pyReplaceDel, List.length_cons, replaceGo]
      rw [if_pos ⟨hne, hp⟩]
      apply replaceGo_no_occ target
      · simp only [List.length_drop, List.length_cons]
        omega
      · intro i hocc
        rw [List.drop_drop] at hocc
        rcases Nat.lt_or_ge (target.length + i) (c :: rest).length with hlt | hge
        · have := honly _ hlt hocc
          omega
        · exact hbig _ hge hocc
  · rw [if_neg hp]
    apply replaceGo_no_occ target url.length url le_rfl
    intro i hocc
    rcases Nat.lt_or_ge i url.length with hlt | hge
    · have h0 := honly i hlt hocc
      subst h0
      rw [List.drop_zero] at hocc
      exact hp hocc
    · exact hbig i hge hocc

/-- C3: for every URL in which the siteTarget occurs only as a leading
prefix (or not at all), the source's per-URL transform (replace-everywhere,
strip `/` from the ends, split on `/`) agrees with the spec's description
(remove exactly the siteTarget prefix from the front, strip `/` from the
ends, split on `/`). -/
theorem split_url_path_leading_target (target url : Str) (hne : target ≠ [])
    (honly : ∀ i, i < url.length → target.isPrefixOf (url.drop i) = true → i = 0) :
    split_url_path target url = split_url_path_spec target url := by
  unfold split_url_path split_url_path_spec
  rw [pyReplaceDel_leading_only target url hne honly]

/-- Witness for C3 at a concrete input: the target occurs only as a leading
prefix of `https://ex.com/a/b`. -/
theorem split_url_path_leading_target_witness :
    split_url_path "https://ex.com".toList "https://ex.com/a/b".toList =
      split_url_path_spec "https://ex.com".toList "https://ex.com/a/b".toList :=
  split_url_path_leading_target _ _ (by decide) (by decide)


/-- A Python split never returns an empty list of segments. -/
theorem splitGo_ne_nil (sep : Str) : ∀ n s, splitGo sep n s ≠ [] := by
  intro n s
  match n, s with
  | _, [] => simp [splitGo]
  | 0, c :: rest => simp [splitGo]
  | n + 1, c :: rest =>
    simp only [splitGo]
    split
    · simp
    · split <;> simp

/-- The first split segment is the text before the first separator. -/
theorem splitGo_get_zero (sep : Str) :
    ∀ n s, s.length ≤ n → (splitGo sep n s)[0]? = some (takeUntilSep sep s) := by
  intro n
  induction n with
  | zero =>
    intro s hs
    have h0 : s = [] := List.eq_nil_of_length_eq_zero (Nat.le_zero.mp hs)
    subst h0
    simp [splitGo, takeUntilSep]
  | succ n ih =>
    intro s hs
    cases s with
    | nil => simp [splitGo, takeUntilSep]
    | cons c rest =>
      simp only [splitGo, takeUntilSep]
      by_cases hp : sep.isPrefixOf (c :: rest) = true
      · rw [if_pos hp, if_pos hp]
        simp
      · rw [if_neg hp, if_neg hp]
        rcases hsp : splitGo sep n rest with _ | ⟨seg, segs⟩
        · exact absurd hsp (splitGo_ne_nil sep n rest)
        · have h0 := ih rest (by simp only [List.length_cons] at hs; omega)
          rw [hsp] at h0
          simp only [List.getElem?_cons_zero, Option.some.injEq] at h0
          simp [h0]

/-- The second split segment is the text between the first and second
occurrences of the separator (everything after the first occurrence when
there is no second), and it exists iff the separator occurs at all. -/
theorem splitGo_get_one (sep : Str) (hne : sep ≠ []) :
    ∀ n s, s.length ≤ n →
      (splitGo sep n s)[1]? = (dropThroughSep sep s).map (takeUntilSep sep) := by
  intro n
  induction n with
  | zero =>
    intro s hs
    have h0 : s = [] := List.eq_nil_of_length_eq_zero (Nat.le_zero.mp hs)
    subst h0
    simp [splitGo, dropThroughSep]
  | succ n ih =>
    intro s hs
    cases s with
    | nil => simp [splitGo, dropThroughSep]
    | cons c rest =>
      have hlen : rest.length ≤ n := by simp only [List.length_cons] at hs; omega
      simp only [splitGo, dropThroughSep]
      by_cases hp : sep.isPrefixOf (c :: rest) = true
      · rw [if_pos hp, if_pos hp]
        have hdl : ((c :: rest).drop sep.length).length ≤ n := by
          simp only [List.length_drop, List.length_cons]
          have := List.length_pos.mpr hne
          omega
        simp only [List.getElem?_cons_succ]
        rw [splitGo_get_zero sep n _ hdl]
        simp
      · rw [if_neg hp, if_neg hp]
        rcases hsp : splitGo sep n rest with _ | ⟨seg, segs⟩
        · exact absurd hsp (splitGo_ne_nil sep n rest)
        · have h1 := ih rest hlen
          rw [hsp] at h1
          simpa using h1

/-- Wrapper form of `splitGo_get_one` for `pySplitSep`. -/
theorem pySplitSep_get_one (sep s : Str) (hne : sep ≠ []) :
    (pySplitSep sep s)[1]? = (dropThroughSep sep s).map (takeUntilSep sep) := by
  unfold pySplitSep
  rw [if_neg hne]
  exact splitGo_get_one sep hne s.length s le_rfl

/-- C4 (amended): a robots.txt line is treated as a sitemap declaration iff
it begins with the literal prefix `"Sitemap:"` (all other lines are ignored
without validation); on such a line the extracted URL is the text strictly
between the first and second occurrences of `": "` (which is everything
after the first occurrence only when no second occurrence exists), trimmed
of surrounding whitespace, and a declaration line without any `": "`
raises `IndexError`. -/
theorem extract_line_characterization (line : Str) :
    (¬ sitemapPfx.isPrefixOf line = true → extract_line line = none) ∧
    (sitemapPfx.isPrefixOf line = true → dropThroughSep colonSpace line = none →
      extract_line line = some (.error .indexError)) ∧
    (∀ rest, sitemapPfx.isPrefixOf line = true →
      dropThroughSep colonSpace line = some rest →
      extract_line line = some (.ok (pyStrip (takeUntilSep colonSpace rest)))) := by
  refine ⟨?_, ?_, ?_⟩
  · intro h
    unfold extract_line
    rw [if_neg h]
  · intro h hd
    unfold extract_line
    rw [if_pos h, pySplitSep_get_one colonSpace line (by decide), hd]
    rfl
  · intro rest h hd
    unfold extract_line
    rw [if_pos h, pySplitSep_get_one colonSpace line (by decide), hd]
    rfl

/-- Witness for C4's amended theorem at a concrete declaration line. -/
theorem extract_line_characterization_witness :
    dropThroughSep colonSpace "Sitemap: u.xml".toList = some "u.xml".toList ∧
    extract_line "Sitemap: u.xml".toList =
      some (.ok (pyStrip (takeUntilSep colonSpace "u.xml".toList))) :=
  ⟨by decide,
   (extract_line_characterization "Sitemap: u.xml".toList).2.2 "u.xml".toList
     (by decide) (by decide)⟩

/-- C4 counterexample: on the line `"Sitemap: http://h: 80/x.xml"` the
extracted URL is `"http://h"`, the second split segment, not everything
after the first `": "` (`"http://h: 80/x.xml"`, already trimmed), so the
claim's extraction rule fails on lines whose separator occurs twice. -/
theorem extract_line_second_segment_cex :
    okUrlOf (extract_line c4Line) = some "http://h".toList ∧
    dropThroughSep colonSpace c4Line = some "http://h: 80/x.xml".toList ∧
    pyStrip "http://h: 80/x.xml".toList ≠ "http://h".toList := by
  decide


/-- The exception plumbing around an empty remaining loop is the identity. -/
theorem contOf_nil_cont (limit : Nat)
    (vf : Str → CrawlState → Option (Except PyErr CrawlState)) :
    ∀ r, contOf (fun s => process_locs limit vf [] s) r = r := by
  intro r
  rcases r with _ | er
  · rfl
  · rcases er with e | st <;> rfl

/-- Equation of the location loop on an empty list. -/
theorem process_locs_nil (limit : Nat)
    (vf : Str → CrawlState → Option (Except PyErr CrawlState)) (st : CrawlState) :
    process_locs limit vf [] st = some (.ok st) := rfl

/-- Equation of the location loop on a non-empty list. -/
theorem process_locs_cons (limit : Nat)
    (vf : Str → CrawlState → Option (Except PyErr CrawlState))
    (l : Str) (ls : List Str) (st : CrawlState) :
    process_locs limit vf (l :: ls) st =
      if endsWithXml l = true ∧ st.processed < limit then
        contOf (fun s => process_locs limit vf ls s)
          (vf l { st with processed := st.processed + 1 })
      else
        process_locs limit vf ls st := rfl

/-- One unfolding of `parse_sitemap` below the guard, once the enhanced
table is known. -/
theorem parse_sitemap_step (env : CrawlEnv) (fuel : Nat) (url : Str)
    (st : CrawlState) (rows : List Row) (h : st.processed < env.limit)
    (henh : enhance_dataframe env.target (env.locsOf (fetch_content (env.fetch url))) =
      some rows) :
    parse_sitemap env (fuel + 1) url st =
      process_locs env.limit (fun u s => parse_sitemap env fuel u s)
        (env.locsOf (fetch_content (env.fetch url)))
        ⟨dictInsert (sitemap_id url) rows st.data, st.processed, st.visited ++ [url]⟩ := by
  simp only [parse_sitemap]
  rw [if_neg (Nat.not_le.mpr h), henh]

/-- A visit of a leaf document (a single location entry that is not an
`.xml` URL): the entry is stored, the counter unchanged, no recursion. -/
theorem parse_leaf (env : CrawlEnv) (fuel : Nat) (u w : Str) (st : CrawlState)
    (rows : List Row)
    (henh : enhance_dataframe env.target [w] = some rows)
    (hl : env.locsOf (fetch_content (env.fetch u)) = [w])
    (hw : endsWithXml w = false)
    (hp : st.processed < env.limit) :
    parse_sitemap env (fuel + 1) u st =
      some (.ok ⟨dictInsert (sitemap_id u) rows st.data, st.processed,
        st.visited ++ [u]⟩) := by
  rw [parse_sitemap_step env fuel u st rows hp (by rw [hl]; exact henh), hl,
    process_locs_cons, if_neg (by simp [hw]), process_locs_nil]

/-- A visit of a document with a single nested `.xml` entry: store, then
increment the counter and recurse on the entry. -/
theorem parse_node1 (env : CrawlEnv) (fuel : Nat) (u w : Str) (st : CrawlState)
    (rows : List Row)
    (henh : enhance_dataframe env.target [w] = some rows)
    (hl : env.locsOf (fetch_content (env.fetch u)) = [w])
    (hw : endsWithXml w = true)
    (hp : st.processed < env.limit) :
    parse_sitemap env (fuel + 1) u st =
      parse_sitemap env fuel w
        ⟨dictInsert (sitemap_id u) rows st.data, st.processed + 1,
          st.visited ++ [u]⟩ := by
  rw [parse_sitemap_step env fuel u st rows hp (by rw [hl]; exact henh), hl,
    process_locs_cons, if_pos ⟨hw, hp⟩, contOf_nil_cont]

/-- A visit of a document with two nested entries, the first of which is an
`.xml` URL: store, then recurse on the first entry, the second entry's
handling left as the remaining loop. -/
theorem parse_node2 (env : CrawlEnv) (fuel : Nat) (u w1 w2 : Str) (st : CrawlState)
    (rows : List Row)
    (henh : enhance_dataframe env.target [w1, w2] = some rows)
    (hl : env.locsOf (fetch_content (env.fetch u)) = [w1, w2])
    (hw : endsWithXml w1 = true)
    (hp : st.processed < env.limit) :
    parse_sitemap env (fuel + 1) u st =
      contOf (fun s => process_locs env.limit (fun u2 s2 => parse_sitemap env fuel u2 s2) [w2] s)
        (parse_sitemap env fuel w1
          ⟨dictInsert (sitemap_id u) rows st.data, st.processed + 1,
            st.visited ++ [u]⟩) := by
  rw [parse_sitemap_step env fuel u st rows hp (by rw [hl]; exact henh), hl,
    process_locs_cons, if_pos ⟨hw, hp⟩]


/-- C6: traversal is strictly depth-first in document order: for any
distinct documents where `a` references the nested `.xml` documents `b`
then `c`, and `b` references the nested `.xml` document `d` (with `d` and
`c` containing one ordinary page URL each), a visit of `a` under the
default budget of 20 visits `a, b, d, c` in that order. -/
theorem dfs_visit_order (t a b c d p q : Str)
    (hba : b ≠ a) (hca : c ≠ a) (hcb : c ≠ b) (hcd : c ≠ d)
    (hda : d ≠ a) (hdb : d ≠ b)
    (hbx : endsWithXml b = true) (hcx : endsWithXml c = true)
    (hdx : endsWithXml d = true)
    (hpx : endsWithXml p = false) (hqx : endsWithXml q = false) :
    visitedOf (parse_sitemap (dfsEnv t a b c d p q) 5 a ⟨[], 0, []⟩) =
      some [a, b, d, c] := by
  have hea : (dfsEnv t a b c d p q).locsOf
      (fetch_content ((dfsEnv t a b c d p q).fetch a)) = [b, c] := by
    simp [dfsEnv, fetch_content]
  have heb : (dfsEnv t a b c d p q).locsOf
      (fetch_content ((dfsEnv t a b c d p q).fetch b)) = [d] := by
    simp [dfsEnv, fetch_content, hba]
  have hed : (dfsEnv t a b c d p q).locsOf
      (fetch_content ((dfsEnv t a b c d p q).fetch d)) = [p] := by
    simp [dfsEnv, fetch_content, hda, hdb]
  have hec : (dfsEnv t a b c d p q).locsOf
      (fetch_content ((dfsEnv t a b c d p q).fetch c)) = [q] := by
    simp [dfsEnv, fetch_content, hca, hcb, hcd]
  obtain ⟨Ra, hRa⟩ : ∃ r, enhance_dataframe t [b, c] = some r := ⟨_, rfl⟩
  obtain ⟨Rb, hRb⟩ : ∃ r, enhance_dataframe t [d] = some r := ⟨_, rfl⟩
  obtain ⟨Rd, hRd⟩ : ∃ r, enhance_dataframe t [p] = some r := ⟨_, rfl⟩
  obtain ⟨Rc, hRc⟩ : ∃ r, enhance_dataframe t [q] = some r := ⟨_, rfl⟩
  rw [show (5 : Nat) = 4 + 1 from rfl,
    parse_node2 (dfsEnv t a b c d p q) 4 a b c ⟨[], 0, []⟩ Ra hRa hea hbx
      (by simp [dfsEnv])]
  dsimp only
  simp only [Nat.reduceAdd, List.nil_append, List.singleton_append, List.cons_append]
  rw [show (4 : Nat) = 3 + 1 from rfl,
    parse_node1 (dfsEnv t a b c d p q) 3 b d
      ⟨dictInsert (sitemap_id a) Ra [], 1, [a]⟩ Rb hRb heb hdx (by simp [dfsEnv])]
  dsimp only
  simp only [Nat.reduceAdd, List.nil_append, List.singleton_append, List.cons_append]
  rw [show (3 : Nat) = 2 + 1 from rfl,
    parse_leaf (dfsEnv t a b c d p q) 2 d p
      ⟨dictInsert (sitemap_id b) Rb (dictInsert (sitemap_id a) Ra []), 2, [a, b]⟩
      Rd hRd hed hpx (by simp [dfsEnv])]
  simp only [contOf]
  rw [process_locs_cons]
  rw [if_pos ⟨hcx, (by simp [dfsEnv] : ((⟨dictInsert (sitemap_id d) Rd
      (dictInsert (sitemap_id b) Rb (dictInsert (sitemap_id a) Ra [])), 2,
      [a, b] ++ [d]⟩ : CrawlState)).processed < (dfsEnv t a b c d p q).limit)⟩]
  dsimp only
  simp only [Nat.reduceAdd, List.nil_append, List.singleton_append, List.cons_append,
    List.append_assoc]
  rw [parse_leaf (dfsEnv t a b c d p q) (2 + 1) c q
      ⟨dictInsert (sitemap_id d) Rd
        (dictInsert (sitemap_id b) Rb (dictInsert (sitemap_id a) Ra [])),
        3, [a, b, d]⟩
      Rc hRc hec hqx (by simp [dfsEnv])]
  rw [contOf_nil_cont]
  simp [visitedOf, okOf]


/-- Witness for C6 at concrete distinct documents. -/
theorem dfs_visit_order_witness :
    visitedOf (parse_sitemap
      (dfsEnv "t".toList "a.xml".toList "b.xml".toList "c.xml".toList "d.xml".toList
        "p".toList "q".toList) 5 "a.xml".toList ⟨[], 0, []⟩) =
      some ["a.xml".toList, "b.xml".toList, "d.xml".toList, "c.xml".toList] :=
  dfs_visit_order "t".toList "a.xml".toList "b.xml".toList "c.xml".toList "d.xml".toList
    "p".toList "q".toList (by decide) (by decide) (by decide) (by decide) (by decide)
    (by decide) (by decide) (by decide) (by decide) (by decide) (by decide)

/-- A dict write is read back by a lookup of the same key, whatever was
stored before. -/
theorem dictGet_insert_self (k : Str) (v : List Row) :
    ∀ m, dictGet k (dictInsert k v m) = some v := by
  intro m
  induction m with
  | nil => simp [dictInsert, dictGet]
  | cons kv rest ih =>
    obtain ⟨k2, v2⟩ := kv
    simp only [dictInsert]
    by_cases h : k2 = k
    · rw [if_pos h]
      simp [dictGet]
    · rw [if_neg h]
      simp only [dictGet]
      rw [if_neg h]
      exact ih

/-- C7: for two distinct sitemap URLs `u1`, `u2` whose final `/`-delimited
segment is the same, both referenced (in that order) by a root `r`, both
visits write their RecordSet under that same key, and the entry stored
after the crawl under it is the one from `u2` — whichever document was
visited last in depth-first order (last-write-wins). -/
theorem sitemap_id_collision_last_write (t r u1 u2 p1 p2 : Str)
    (h21 : u2 ≠ u1) (h1r : u1 ≠ r) (h2r : u2 ≠ r)
    (hx1 : endsWithXml u1 = true) (hx2 : endsWithXml u2 = true)
    (hp1 : endsWithXml p1 = false) (hp2 : endsWithXml p2 = false)
    (hs : sitemap_id u1 = sitemap_id u2) :
    ∃ st₂ rows2,
      parse_sitemap (collEnv t r u1 u2 p1 p2) 5 r ⟨[], 0, []⟩ = some (.ok st₂) ∧
      enhance_dataframe t [p2] = some rows2 ∧
      dictGet (sitemap_id u1) st₂.data = some rows2 ∧
      st₂.visited = [r, u1, u2] := by
  have her : (collEnv t r u1 u2 p1 p2).locsOf
      (fetch_content ((collEnv t r u1 u2 p1 p2).fetch r)) = [u1, u2] := by
    simp [collEnv, fetch_content]
  have he1 : (collEnv t r u1 u2 p1 p2).locsOf
      (fetch_content ((collEnv t r u1 u2 p1 p2).fetch u1)) = [p1] := by
    simp [collEnv, fetch_content, h1r]
  have he2 : (collEnv t r u1 u2 p1 p2).locsOf
      (fetch_content ((collEnv t r u1 u2 p1 p2).fetch u2)) = [p2] := by
    simp [collEnv, fetch_content, h2r, h21]
  obtain ⟨Rr, hRr⟩ : ∃ x, enhance_dataframe t [u1, u2] = some x := ⟨_, rfl⟩
  obtain ⟨R1, hR1⟩ : ∃ x, enhance_dataframe t [p1] = some x := ⟨_, rfl⟩
  obtain ⟨R2, hR2⟩ : ∃ x, enhance_dataframe t [p2] = some x := ⟨_, rfl⟩
  have hrun : parse_sitemap (collEnv t r u1 u2 p1 p2) 5 r ⟨[], 0, []⟩ =
      some (.ok ⟨dictInsert (sitemap_id u2) R2
        (dictInsert (sitemap_id u1) R1 (dictInsert (sitemap_id r) Rr [])),
        2, [r, u1, u2]⟩) := by
    rw [show (5 : Nat) = 4 + 1 from rfl,
      parse_node2 (collEnv t r u1 u2 p1 p2) 4 r u1 u2 ⟨[], 0, []⟩ Rr hRr her hx1
        (by simp [collEnv])]
    dsimp only
    simp only [Nat.reduceAdd, List.nil_append, List.singleton_append, List.cons_append]
    rw [show (4 : Nat) = 3 + 1 from rfl,
      parse_leaf (collEnv t r u1 u2 p1 p2) 3 u1 p1
        ⟨dictInsert (sitemap_id r) Rr [], 1, [r]⟩ R1 hR1 he1 hp1
        (by simp [collEnv])]
    simp only [contOf]
    rw [process_locs_cons]
    rw [if_pos ⟨hx2, (by simp [collEnv] : ((⟨dictInsert (sitemap_id u1) R1
        (dictInsert (sitemap_id r) Rr []), 1, [r] ++ [u1]⟩ : CrawlState)).processed <
        (collEnv t r u1 u2 p1 p2).limit)⟩]
    dsimp only
    simp only [Nat.reduceAdd, List.nil_append, List.singleton_append, List.cons_append,
      List.append_assoc]
    rw [parse_leaf (collEnv t r u1 u2 p1 p2) 3 u2 p2
        ⟨dictInsert (sitemap_id u1) R1 (dictInsert (sitemap_id r) Rr []), 2, [r, u1]⟩
        R2 hR2 he2 hp2 (by simp [collEnv])]
    rw [contOf_nil_cont]
    rfl
  refine ⟨_, R2, hrun, hR2, ?_, rfl⟩
  rw [hs]
  exact dictGet_insert_self (sitemap_id u2) R2 _


/-- Witness for C7 at concrete URLs `.../a/s.xml` and `.../b/s.xml` sharing
the basename `s.xml`. -/
theorem sitemap_id_collision_last_write_witness :
    ∃ st₂ rows2,
      parse_sitemap (collEnv "t".toList "r.xml".toList "a/s.xml".toList "b/s.xml".toList
        "p".toList "q".toList) 5 "r.xml".toList ⟨[], 0, []⟩ = some (.ok st₂) ∧
      enhance_dataframe "t".toList ["q".toList] = some rows2 ∧
      dictGet (sitemap_id "a/s.xml".toList) st₂.data = some rows2 ∧
      st₂.visited = ["r.xml".toList, "a/s.xml".toList, "b/s.xml".toList] :=
  sitemap_id_collision_last_write "t".toList "r.xml".toList "a/s.xml".toList
    "b/s.xml".toList "p".toList "q".toList (by decide) (by decide) (by decide)
    (by decide) (by decide) (by decide) (by decide) (by decide)


/-- The location loop only depends on its visit function pointwise. -/
theorem process_locs_congr (limit : Nat)
    (vf1 vf2 : Str → CrawlState → Option (Except PyErr CrawlState))
    (h : ∀ u s, vf1 u s = vf2 u s) :
    ∀ locs st, process_locs limit vf1 locs st = process_locs limit vf2 locs st := by
  intro locs
  induction locs with
  | nil => intro st; rfl
  | cons l ls ih =>
    intro st
    rw [process_locs_cons, process_locs_cons]
    by_cases hc : endsWithXml l = true ∧ st.processed < limit
    · rw [if_pos hc, if_pos hc, h]
      rcases vf2 l { st with processed := st.processed + 1 } with _ | er
      · rfl
      · rcases er with e | s
        · rfl
        · simp only [contOf]
          exact ih s
    · rw [if_neg hc, if_neg hc]
      exact ih st

/-- The traversal only depends on the fetch collaborator through
`fetch_content`'s value. -/
theorem parse_sitemap_fetch_congr (env1 env2 : CrawlEnv)
    (hfc : ∀ u, fetch_content (env1.fetch u) = fetch_content (env2.fetch u))
    (hlo : env1.locsOf = env2.locsOf) (hli : env1.limit = env2.limit)
    (hta : env1.target = env2.target) :
    ∀ fuel url st, parse_sitemap env1 fuel url st = parse_sitemap env2 fuel url st := by
  intro fuel
  induction fuel with
  | zero => intro url st; rfl
  | succ fuel ih =>
    intro url st
    simp only [parse_sitemap]
    rw [hfc, hlo, hli, hta]
    by_cases hg : st.processed ≥ env2.limit
    · rw [if_pos hg, if_pos hg]
    · rw [if_neg hg, if_neg hg]
      rcases enhance_dataframe env2.target
          (env2.locsOf (fetch_content (env2.fetch url))) with _ | rows
      · rfl
      · exact process_locs_congr env2.limit _ _ (fun u s => ih u s) _ _

/-- C9: every transport-level failure (any `RequestException`, which
includes network, DNS, timeout, and the non-2xx turned into an exception by
`raise_for_status`) is caught at the `fetch_content` boundary and converted
to the empty content string, while a success returns the response text
unchanged; consequently a traversal in which every fetch fails at the
transport level behaves exactly as one in which every fetch returns empty
content — no transport error is ever propagated to the caller of `visit`
(the crawl error type `PyErr` has no transport constructor at all). -/
theorem fetch_content_soft_fail :
    (∀ e, fetch_content (.transportError e) = []) ∧
    (∀ t, fetch_content (.success t) = t) ∧
    (∀ (env : CrawlEnv) (e : Str) (fuel : Nat) (url : Str) (st : CrawlState),
      parse_sitemap { env with fetch := fun _ => .transportError e } fuel url st =
        parse_sitemap { env with fetch := fun _ => .success [] } fuel url st) :=
  ⟨fun _ => rfl, fun _ => rfl,
   fun env e fuel url st =>
     parse_sitemap_fetch_congr { env with fetch := fun _ => .transportError e }
       { env with fetch := fun _ => .success [] } (fun _ => rfl) rfl rfl rfl fuel url st⟩

end Sitemap
